import Mathlib

/-!
# Verification of the search-and-highlight subsystem of `archivodenubes`

Shallow embedding of the feature search, suggestion, formatting, selection
and highlight logic of `src/script.js`, together with theorems settling the
frozen claims C1..C10 about the natural-language specification.

Features are modelled as ordered property bags (lists of string key/value
pairs, mirroring a JS object's own enumerable string properties in
insertion order).  JS truthiness on the string values read by this code
collapses to "non-empty string".  DOM and OpenLayers effects are modelled
as explicit state records and event step functions.
-/

namespace ArchivoNubes

/-! ## JS string primitives -/

/-- ASCII lower-casing extended with the Latin accented capitals that occur
in this data set; mirrors `String.prototype.toLowerCase` on the alphabets
the program compares (all comparison targets in `script.js` are ASCII or
Latin-1 Spanish text). -/
def jsToLower (c : Char) : Char :=
  if 'A' ≤ c ∧ c ≤ 'Z' then Char.ofNat (c.toNat + 32)
  else if c = 'Á' then 'á'
  else if c = 'É' then 'é'
  else if c = 'Í' then 'í'
  else if c = 'Ó' then 'ó'
  else if c = 'Ú' then 'ú'
  else if c = 'Ñ' then 'ñ'
  else if c = 'Ü' then 'ü'
  else c

/-- `s.toLowerCase()` -/
def strToLower (s : String) : String := ⟨s.data.map jsToLower⟩

/-- Whitespace stripped by `String.prototype.trim`. -/
def jsWhitespace (c : Char) : Bool :=
  c = ' ' || c = '\t' || c = '\n' || c = '\r' || c = Char.ofNat 11 || c = Char.ofNat 12

/-- `s.trim()` -/
def jsTrim (s : String) : String :=
  ⟨((s.data.dropWhile jsWhitespace).reverse.dropWhile jsWhitespace).reverse⟩

/-- Boolean list-prefix test (executable). -/
def prefB : List Char → List Char → Bool
  | [], _ => true
  | _ :: _, [] => false
  | a :: as, b :: bs => a == b && prefB as bs

/-- Boolean list-contiguous-sublist test (executable). -/
def infB (n : List Char) : List Char → Bool
  | [] => prefB n []
  | c :: t => prefB n (c :: t) || infB n t

/-- `hay.includes(needle)` for JS strings. -/
def substrB (needle hay : String) : Bool := infB needle.data hay.data

/-! ## Features -/

/-- A map feature's property bag: ordered string key/value pairs
(`feature.getProperties()`); keys are unique in a JS object but nothing
below depends on that. -/
abbrev Feature := List (String × String)

/-- `feature.get(k)`: `none` models JS `undefined`. -/
def getProp (f : Feature) (k : String) : Option String := f.lookup k

/-- JS `a || b` on two property reads: keeps `a`'s value when it is truthy
(a non-empty string), otherwise yields `b`'s value. -/
def jsOrOpt (a b : Option String) : Option String :=
  match a with
  | some s => if s = "" then b else some s
  | none => b

/-- JS `v && v.toLowerCase().includes(q)`: the guard makes a falsy (absent
or empty) field value never match.  `q` is the already-lower-cased search
term, as at `script.js:1191/1288`. -/
def truthyCheck (v : Option String) (q : String) : Bool :=
  match v with
  | some s => if s = "" then false else substrB q (strToLower s)
  | none => false

/-- The matching predicate of `performSearch` (`script.js:1190-1209`):
name/nombre, location/ubicación, address/Dirección, comuna, Empresa,
operator/operador.  Note: no `type` field. -/
def searchMatches (q : String) (f : Feature) : Bool :=
  let lowerSearchTerm := strToLower q
  let name := jsOrOpt (getProp f "name") (getProp f "nombre")
  let location := jsOrOpt (getProp f "location") (getProp f "ubicación")
  let address := jsOrOpt (getProp f "address") (getProp f "Dirección")
  let comuna := getProp f "comuna"
  let empresa := getProp f "Empresa"
  let operator := jsOrOpt (getProp f "operator") (getProp f "operador")
  truthyCheck name lowerSearchTerm ||
  truthyCheck location lowerSearchTerm ||
  truthyCheck address lowerSearchTerm ||
  truthyCheck comuna lowerSearchTerm ||
  truthyCheck empresa lowerSearchTerm ||
  truthyCheck operator lowerSearchTerm

/-- The matching predicate of the `searchBox` keyup handler
(`script.js:1293-1311`); identical to `searchMatches` except that it also
checks the `type` field. -/
def suggestMatches (q : String) (f : Feature) : Bool :=
  let searchTerm := strToLower q
  let name := jsOrOpt (getProp f "name") (getProp f "nombre")
  let type := getProp f "type"
  let location := jsOrOpt (getProp f "location") (getProp f "ubicación")
  let address := jsOrOpt (getProp f "address") (getProp f "Dirección")
  let comuna := getProp f "comuna"
  let empresa := getProp f "Empresa"
  let operator := jsOrOpt (getProp f "operator") (getProp f "operador")
  truthyCheck name searchTerm ||
  truthyCheck type searchTerm ||
  truthyCheck location searchTerm ||
  truthyCheck address searchTerm ||
  truthyCheck comuna searchTerm ||
  truthyCheck empresa searchTerm ||
  truthyCheck operator searchTerm

/-! ## Selection & highlight state

The OpenLayers side effects are modelled explicitly: a style override is
an entry in an association list keyed by the feature's identity (a `Nat`
standing for JS object identity); `setStyle(undefined)` removes the
entry.  A camera fit registers a one-shot `moveend` continuation
(`map.once('moveend', ...)`); all continuations registered so far fire on
the next `moveend`, each reading the *current* `selectedFeature` and
setting the glow-prepended style on it (`script.js:1123-1134` and
`script.js:1254-1265`). -/

/-- The value a layer's style function returns: a single style or an
array of styles (`script.js:1126-1130`). -/
inductive StyleRes
  | single (n : Nat)
  | arr (l : List Nat)
deriving DecidableEq

/-- A style element as stored in a feature's override: the fixed glow
decoration (`script.js:695`) or one of the layer's normal styles. -/
inductive SV
  | glow
  | other (n : Nat)
deriving DecidableEq

/-- `if (!Array.isArray(originalStyle)) originalStyle = [originalStyle]` -/
def wrapStyle : StyleRes → List SV
  | .single n => [SV.other n]
  | .arr l => l.map SV.other

/-- UI / selection state touched by the click, search and moveend
handlers. -/
structure SelState where
  selected : Option Nat
  overrides : List (Nat × List SV)
  pending : List StyleRes
  panelOpen : Bool
deriving DecidableEq

def initSel : SelState := ⟨none, [], [], false⟩

/-- `resetFeatureStyle` (`script.js:714-719`): clear the selected
feature's style override and null the selection. -/
def resetFeatureStyle (s : SelState) : SelState :=
  match s.selected with
  | some f => { s with overrides := s.overrides.filter (fun p => p.1 != f), selected := none }
  | none => s

/-- `feature.setStyle(v)`: replace the feature's override. -/
def setOverride (f : Nat) (v : List SV) (ov : List (Nat × List SV)) : List (Nat × List SV) :=
  (f, v) :: ov.filter (fun p => p.1 != f)

/-- Selecting a feature (map click `script.js:1082-1141`, or a successful
search `script.js:1214-1272`): clear the previous highlight, store the
selection, open the panel; when the feature has a geometry, a camera fit
is requested and a one-shot moveend continuation is registered.  `geom`
carries the style the captured layer's style function will produce when
that continuation fires. -/
def selectFeature (s : SelState) (f : Nat) (geom : Option StyleRes) : SelState :=
  let s1 := resetFeatureStyle s
  { s1 with selected := some f, panelOpen := true, pending := s1.pending ++ geom.toList }

/-- A `moveend` firing: every registered one-shot continuation runs; each
is gated only on `if (selectedFeature)` and sets
`[glowStyle, ...originalStyle]` on the *current* selection
(`script.js:1123-1134`, `script.js:1254-1265`). -/
def fireContinuations (s : SelState) : SelState :=
  { s with
    pending := [],
    overrides := s.pending.foldl
      (fun ov orig =>
        match s.selected with
        | some f => setOverride f (SV.glow :: wrapStyle orig) ov
        | none => ov)
      s.overrides }

/-- User-visible events driving the selection/highlight controller. -/
inductive Ev
  | select (f : Nat) (geom : Option StyleRes)
  | deselect
  | settle
deriving DecidableEq

/-- One event step: `select` is a feature click / successful search /
suggestion click; `deselect` is an empty map click, outside click or the
panel close button (`script.js:1046-1049`, `1143-1149`, `957-960`);
`settle` is a `moveend`. -/
def step (s : SelState) : Ev → SelState
  | .select f geom => selectFeature s f geom
  | .deselect => { (resetFeatureStyle s) with panelOpen := false }
  | .settle => fireContinuations s

/-- The state after a sequence of events from start-up. -/
def run (evs : List Ev) : SelState := evs.foldl step initSel

/-! ## `performSearch` (`script.js:1177-1280`) -/

/-- The linear scan of `performSearch` (`script.js:1186-1212`): every
vector layer's features are visited in order and each match overwrites
`foundFeature`. -/
def performSearchScan (layers : List (List Feature)) (q : String) : Option Feature :=
  layers.foldl
    (fun acc feats => feats.foldl (fun a f => if searchMatches q f then some f else a) acc)
    none

/-- What `performSearch` reports: the committed feature, the empty-term
alert, and the no-results message appended to the suggestion list. -/
structure SearchOutcome where
  found : Option Feature
  alertMsg : Option String
  noResultsMsg : Option String
deriving DecidableEq

/-- `performSearch(searchTerm)` (`script.js:1177-1280`) as a state
transformer: empty term alerts and aborts; a found feature drives the
same selection path as a map click (with search-specific max zoom);
otherwise a "No matches were found." message is shown.  `idOf` gives a
feature's object identity and `geomOf` the style-continuation data of its
camera fit (`none` when `getGeometry()` is null). -/
def performSearch (layers : List (List Feature)) (idOf : Feature → Nat)
    (geomOf : Feature → Option StyleRes) (searchTerm : String) (s : SelState) :
    SelState × SearchOutcome :=
  if searchTerm = "" then
    (s, ⟨none, some "Por favor, ingresa un término de búsqueda.", none⟩)
  else
    match performSearchScan layers searchTerm with
    | some f => (selectFeature s (idOf f) (geomOf f), ⟨some f, none, none⟩)
    | none => (s, ⟨none, none, some "No matches were found."⟩)

/-! ## Live suggestions (`searchBox` keyup handler, `script.js:1287-1350`) -/

/-- `feature.get('name') || feature.get('id')` (`script.js:1314`): the
dedup key actually used; a falsy (absent or empty) `name` falls through
to the `id` property's value. -/
def dedupKeyF (f : Feature) : Option String :=
  jsOrOpt (getProp f "name") (getProp f "id")

/-- The `addedFeatureIds` set walk (`script.js:1290,1313-1317`): keep the
first feature per key, in order. -/
def dedupFilter : List Feature → List (Option String) → List Feature
  | [], _ => []
  | f :: rest, seen =>
    if seen.contains (dedupKeyF f) then dedupFilter rest seen
    else f :: dedupFilter rest (dedupKeyF f :: seen)

/-- What the keyup handler leaves in the suggestion dropdown. -/
structure SuggestView where
  items : List Feature
  noResultsMsg : Option String
  visible : Bool
deriving DecidableEq

/-- The keyup handler (`script.js:1287-1350`): trims and lower-cases the
box value, always clears the list, then either renders the deduplicated
matches, a no-results message, or hides the dropdown on an empty term. -/
def keyupSuggest (allFeatures : List Feature) (rawValue : String) : SuggestView :=
  let searchTerm := strToLower (jsTrim rawValue)
  if searchTerm.length > 0 then
    let matchingFeatures := allFeatures.filter (fun f => suggestMatches searchTerm f)
    if matchingFeatures.length > 0 then
      ⟨dedupFilter matchingFeatures [], none, true⟩
    else
      ⟨[], some ("No se encontraron resultados para \"" ++ searchTerm ++ "\"."), true⟩
  else
    ⟨[], none, false⟩

/-- The search-box click handler (`script.js:1352-1356`): a non-empty box
is cleared. -/
def searchBoxClickValue (v : String) : String :=
  if v.length > 0 then "" else v

/-! ## Feature Store (`allFeatures`, `script.js:1156-1175`) -/

/-- Events that can touch (or not touch) the store: a source `change`
signal, appending the source's features exactly when its state is
`'ready'` (`script.js:1163-1167`), and any other handler in the file,
none of which writes `allFeatures`. -/
inductive StoreEv
  | srcChange (ready : Bool) (features : List Feature)
  | uiEvent
deriving DecidableEq

/-- One store transition. -/
def storeStep (store : List Feature) : StoreEv → List Feature
  | .srcChange ready fs => if ready then store ++ fs else store
  | .uiEvent => store

/-- `allFeatures` after a sequence of events from start-up (created
empty, `script.js:1156`). -/
def runStore (evs : List StoreEv) : List Feature := evs.foldl storeStep []

/-- What one event appends to the store. -/
def readyAppend : StoreEv → List Feature
  | .srcChange true fs => fs
  | _ => []

/-! ## Camera-fit max zoom policy -/

/-- Max zoom chosen by the map click handler (`script.js:1104-1111`). -/
def clickMaxZoom (featureType : Option String) : Nat :=
  match featureType with
  | some ty =>
    if ty != "" && strToLower ty == "data center" then 15
    else if ty != "" && strToLower ty == "punto de aterrizaje" then 13
    else 16
  | none => 16

/-- Max zoom chosen by `performSearch` (`script.js:1236-1243`). -/
def searchMaxZoom (featureType : Option String) : Nat :=
  match featureType with
  | some ty =>
    if ty != "" && strToLower ty == "punto de aterrizaje" then 13
    else if ty != "" && strToLower ty == "data center" then 15
    else 14
  | none => 14

/-! ## Formatter (`getFormattedFeatureInfo`, `script.js:984-1044`) -/

/-- The label translation table (`script.js:984-1013`). -/
def translationDict : List (String × String) :=
  [("name", "Nombre"), ("type", "Tipo"), ("empresa", "Empresa"), ("shape", "Forma"),
   ("color", "Color"),
   ("size", "Tamaño"), ("address", "Dirección"), ("pue", "Eficiencia Energética (PUE)"),
   ("wue", "Eficiencia Hídrica (WUE)"), ("dimensiones", "Dimensiones Físicas"),
   ("tecnologias", "Tecnologías Empleadas"),
   ("sistemas_refrigeracion", "Sistemas de Refrigeración"),
   ("consumo_agua", "Consumo de Agua"), ("uso_suelo", "Uso de Suelo"),
   ("emisiones", "Datos sobre Emisiones"), ("source", "Fuente"),
   ("reference_link", "Enlace de Referencia"), ("length_km", "Longitud (km)"),
   ("image", "Imagen"), ("width", "Ancho"), ("año", "Año"),
   ("consultora", "Consultora"), ("superficie_predial", "Superficie Predial"),
   ("superficie_construida", "Superficie Construida"), ("inversion", "Inversión"),
   ("tipo_de_refrigeracion", "Tipo de Refrigeración"),
   ("evaluacion_ambiental", "Evaluación Ambiental"), ("comuna", "Comuna")]

/-- `excludedKeys` exactly as written at `script.js:1014` — note the
capital D in `'lineDash'`, which is compared against *lower-cased*
property keys at `script.js:1026`. -/
def excludedKeys : List String :=
  ["name", "type", "shape", "color", "size", "opacity", "geometry", "width", "lineDash", "id"]

/-- JS `o || d` where a falsy (absent or empty) `o` yields the default. -/
def jsOrStr (o : Option String) (d : String) : String :=
  match o with
  | some s => if s = "" then d else s
  | none => d

/-- ASCII upper-casing; `\w` only matches ASCII word characters, so this
is all `c.toUpperCase()` is applied to at `script.js:1027`. -/
def jsToUpper (c : Char) : Char :=
  if 'a' ≤ c ∧ c ≤ 'z' then Char.ofNat (c.toNat - 32) else c

/-- A JS regex `\w` word character. -/
def isWordChar (c : Char) : Bool :=
  ('a' ≤ c && c ≤ 'z') || ('A' ≤ c && c ≤ 'Z') || ('0' ≤ c && c ≤ '9') || c = '_'

/-- `.replace(/\b\w/g, c => c.toUpperCase())`: upper-case every word
character that starts a word; `prevW` records whether the previous
character was a word character. -/
def capWords (prevW : Bool) : List Char → List Char
  | [] => []
  | c :: t => (if !prevW && isWordChar c then jsToUpper c else c) :: capWords (isWordChar c) t

/-- `key.replace(/_/g, ' ').replace(/\b\w/g, c => c.toUpperCase())`
(`script.js:1027`). -/
def deriveLabel (key : String) : String :=
  ⟨capWords false (key.data.map (fun c => if c = '_' then ' ' else c))⟩

/-- The HTML fragments the loop body at `script.js:1024-1042` emits for
one property (in order); `name` is the resolved panel title, used in the
image `alt`. -/
def formatItem (name key value : String) : List String :=
  let lowercaseKey := strToLower key
  if !excludedKeys.contains lowercaseKey && value != "" then
    let translatedKey := jsOrStr (translationDict.lookup lowercaseKey) (deriveLabel key)
    if lowercaseKey == "image" && value != "" then
      if value.startsWith "http" then
        ["<div class=\"info-item image-container\"><img src=\"" ++ value ++ "\" alt=\"" ++
          name ++ "\"></div>"]
      else []
    else if lowercaseKey == "reference_link" && value != "" then
      ["<div class=\"info-item\"><strong>" ++ translatedKey ++
        ":</strong> <a href=\"" ++ value ++
        "\" target=\"_blank\" rel=\"noopener noreferrer\">Ver Referencia</a></div>"]
    else
      if value != "" then
        ["<div class=\"info-item\"><strong>" ++ translatedKey ++ ":</strong> " ++ value ++ "</div>"]
      else []
  else []

/-- `getFormattedFeatureInfo` (`script.js:1016-1044`) as the ordered list
of HTML fragments concatenated into `content`. -/
def formatItems (f : Feature) : List String :=
  let name := jsOrStr (getProp f "name") "Información del Elemento"
  let type := jsOrStr (getProp f "type") "Elemento"
  ("<h2>" ++ name ++ "</h2>") ::
  ("<h4 class=\"subtitle\">" ++ type ++ "</h4>") ::
  (f.map (fun kv => formatItem name kv.1 kv.2)).flatten

/-- The `content` string `getFormattedFeatureInfo` returns. -/
def getFormattedFeatureInfo (f : Feature) : String :=
  String.join (formatItems f)

/-! ## Theorems -/

/-- A later-match-overwrites fold keeps the last element satisfying `p`,
falling back to the accumulator. -/
lemma lastMatch_foldl (p : Feature → Bool) :
    ∀ (l : List Feature) (acc : Option Feature),
      l.foldl (fun a f => if p f then some f else a) acc = ((l.filter p).getLast?).or acc
  | [], acc => by simp
  | f :: t, acc => by
    simp only [List.foldl_cons, List.filter_cons]
    by_cases hf : p f = true
    · simp only [hf, if_true]
      rw [lastMatch_foldl p t (some f)]
      rcases h : t.filter p with _ | ⟨x, xs⟩
      · simp
      · have hs : (x :: xs : List Feature).getLast?.isSome :=
          List.getLast?_isSome.mpr (by simp)
        obtain ⟨y, hy⟩ := Option.isSome_iff_exists.mp hs
        simp [List.getLast?_cons_cons, hy]
    · simp only [hf, if_false]
      exact lastMatch_foldl p t acc

/-- The nested scan of `performSearch` is the last match of the
concatenated feature sequence. -/
lemma performSearchScan_eq (layers : List (List Feature)) (q : String) :
    performSearchScan layers q = (layers.flatten.filter (searchMatches q)).getLast? := by
  unfold performSearchScan
  rw [← List.foldl_flatten, lastMatch_foldl]
  simp

/-- A cable-route feature and a landing-point feature that both match the
query "x". -/
def cexCable : Feature := [("name", "x cable")]

def cexPoint : Feature := [("name", "x point")]

/-- The scan `performSearch` actually performs: the map's vector layers
in the order they were added to the map (`script.js:914-917`) — cable,
landCable, point, dataCenter; here the cable layer holds `cexCable` and
the point layer holds `cexPoint`. -/
def cexMapLayers : List (List Feature) := [[cexCable], [], [cexPoint], []]

/-- The Feature Store in the same scenario: `initializeSearchFeatures`
subscribes in the order point, dataCenter, landCable, cable
(`script.js:1159`), so with each source completing in subscription order
the store holds the point feature before the cable feature. -/
def cexStoreEvents : List StoreEv :=
  [StoreEv.srcChange true [cexPoint], StoreEv.srcChange true [],
   StoreEv.srcChange true [], StoreEv.srcChange true [cexCable]]

/-- C1 counterexample: `performSearch` never reads `allFeatures` — it
scans the map's vector layers (`script.js:1186`), whose order differs
from the store's append order.  With one match in the cable layer and
one in the point layer, the code commits the point feature (the last
match of its map-layer scan), while the LAST match of a linear scan of
the Feature Store is the cable feature: the claimed store-order
tie-break fails when matches span layers. -/
theorem performSearch_store_order_cex :
    (performSearch cexMapLayers (fun _ => 0) (fun _ => none) "x" initSel).2.found
      = some cexPoint
    ∧ ((runStore cexStoreEvents).filter (searchMatches "x")).getLast? = some cexCable
    ∧ cexPoint ≠ cexCable := by
  exact ⟨by decide, by decide, by decide⟩

/-- C1 amended: for a non-empty query, `performSearch` commits to the
LAST matching feature of the linear scan it actually performs — the
map's vector layers in the order they were added, later matches
overwriting earlier ones (which need not coincide with Feature-Store
append order when matches span layers); with no match it commits to
none and shows the "No matches were found." message. -/
theorem performSearch_returns_last_match
    (layers : List (List Feature)) (idOf : Feature → Nat) (geomOf : Feature → Option StyleRes)
    (q : String) (s : SelState) (hq : q ≠ "") :
    (performSearch layers idOf geomOf q s).2.found
      = (layers.flatten.filter (searchMatches q)).getLast?
    ∧ (layers.flatten.filter (searchMatches q) = [] →
        (performSearch layers idOf geomOf q s).2.found = none
        ∧ (performSearch layers idOf geomOf q s).2.noResultsMsg
            = some "No matches were found.") := by
  have hscan := performSearchScan_eq layers q
  unfold performSearch
  rw [if_neg hq]
  constructor
  · rcases h : performSearchScan layers q with _ | f <;> simp_all
  · intro hnil
    rcases h : performSearchScan layers q with _ | f
    · simp
    · rw [hscan, hnil] at h
      simp at h

/-- Witness for C1 at concrete inputs: the scan of two matches for
`"a"` returns the later one, and a query matching nothing reports the
no-results message. -/
theorem performSearch_returns_last_match_witness :
    (performSearch [[[("comuna", "a")], [("comuna", "ab")]]]
        (fun _ => 0) (fun _ => none) "a" initSel).2.found = some [("comuna", "ab")]
    ∧ (performSearch [[[("comuna", "a")], [("comuna", "ab")]]]
        (fun _ => 0) (fun _ => none) "zz" initSel).2.noResultsMsg
        = some "No matches were found." := by
  constructor
  · have h := (performSearch_returns_last_match [[[("comuna", "a")], [("comuna", "ab")]]]
      (fun _ => 0) (fun _ => none) "a" initSel (by decide)).1
    rw [h]; decide
  · exact ((performSearch_returns_last_match [[[("comuna", "a")], [("comuna", "ab")]]]
      (fun _ => 0) (fun _ => none) "zz" initSel (by decide)).2 (by decide)).2

lemma prefB_iff : ∀ a b : List Char, prefB a b = true ↔ a <+: b
  | [], b => by simp [prefB]
  | a :: as, [] => by simp [prefB]
  | a :: as, b :: bs => by
    rw [prefB, List.cons_prefix_cons, Bool.and_eq_true, beq_iff_eq]
    exact and_congr Iff.rfl (prefB_iff as bs)

lemma infB_iff (n : List Char) : ∀ h : List Char, infB n h = true ↔ n <:+: h
  | [] => by
    rw [infB, prefB_iff]
    simp
  | c :: t => by
    rw [infB, List.infix_cons_iff, Bool.or_eq_true, prefB_iff]
    exact or_congr Iff.rfl (infB_iff n t)

lemma substrB_iff (n h : String) : substrB n h = true ↔ n.data <:+: h.data :=
  infB_iff n.data h.data

lemma string_data_eq_nil {s : String} (h : s.data = []) : s = "" :=
  congrArg String.mk h

lemma strToLower_eq_empty_iff (s : String) : strToLower s = "" ↔ s = "" := by
  cases s with
  | mk d =>
    constructor
    · intro h
      have hd : d.map jsToLower = [] := congrArg String.data h
      have : d = [] := by simpa using hd
      rw [this]
    · intro h
      rw [h]
      rfl

/-! ### C2: the matching predicate, spec side

The spec claims one predicate shared by `suggest` and `findFirst`, over
fields including `type`; we characterize each handler's actual predicate
against a spec-level statement ("the field resolves to a value containing
the query as a case-insensitive substring, no diacritic folding"). -/

/-- Spec wording: "contains q as a case-insensitive substring (no
diacritic normalization)". -/
def SpecContains (q v : String) : Prop :=
  (strToLower q).data <:+: (strToLower v).data

/-- The fields the keyup (suggest) predicate reads, alias pairs resolved
as the code resolves them (first truthy spelling). -/
def specSuggestFields (f : Feature) : List (Option String) :=
  [jsOrOpt (getProp f "name") (getProp f "nombre"),
   getProp f "type",
   jsOrOpt (getProp f "location") (getProp f "ubicación"),
   jsOrOpt (getProp f "address") (getProp f "Dirección"),
   getProp f "comuna",
   getProp f "Empresa",
   jsOrOpt (getProp f "operator") (getProp f "operador")]

/-- The fields the `performSearch` predicate reads: the same list
without `type`. -/
def specSearchFields (f : Feature) : List (Option String) :=
  [jsOrOpt (getProp f "name") (getProp f "nombre"),
   jsOrOpt (getProp f "location") (getProp f "ubicación"),
   jsOrOpt (getProp f "address") (getProp f "Dirección"),
   getProp f "comuna",
   getProp f "Empresa",
   jsOrOpt (getProp f "operator") (getProp f "operador")]

/-- Spec-level matching: some listed field resolves to a value that
contains the query case-insensitively. -/
def SpecFieldMatch (fields : List (Option String)) (q : String) : Prop :=
  ∃ v : String, some v ∈ fields ∧ SpecContains q v

lemma truthyCheck_iff (q : String) (hq : q ≠ "") (v : Option String) :
    truthyCheck v (strToLower q) = true ↔ ∃ s, v = some s ∧ SpecContains q s := by
  have hql : strToLower q ≠ "" := fun h => hq ((strToLower_eq_empty_iff q).mp h)
  cases v with
  | none => simp [truthyCheck]
  | some s =>
    by_cases hs : s = ""
    · subst hs
      simp only [truthyCheck, if_pos rfl]
      constructor
      · intro h
        exact absurd h (by simp)
      · rintro ⟨t, ht, hc⟩
        obtain rfl : t = "" := by simpa using ht.symm
        have hdat : (strToLower q).data = [] := by
          simpa [SpecContains, strToLower] using hc
        exact absurd (string_data_eq_nil hdat) hql
    · simp only [truthyCheck, if_neg hs, substrB_iff]
      constructor
      · intro h
        exact ⟨s, rfl, h⟩
      · rintro ⟨t, ht, hc⟩
        obtain rfl : t = s := by simpa using ht.symm
        exact hc

lemma any_truthy_iff (q : String) (hq : q ≠ "") (L : List (Option String)) :
    L.any (fun v => truthyCheck v (strToLower q)) = true
      ↔ SpecFieldMatch L q := by
  rw [List.any_eq_true]
  constructor
  · rintro ⟨v, hv, ht⟩
    obtain ⟨s, rfl, hc⟩ := (truthyCheck_iff q hq v).mp ht
    exact ⟨s, hv, hc⟩
  · rintro ⟨s, hs, hc⟩
    exact ⟨some s, hs, (truthyCheck_iff q hq _).mpr ⟨s, rfl, hc⟩⟩

lemma suggestMatches_eq_any (q : String) (f : Feature) :
    suggestMatches q f = (specSuggestFields f).any (fun v => truthyCheck v (strToLower q)) := by
  simp [suggestMatches, specSuggestFields, List.any_cons, List.any_nil, Bool.or_assoc]

lemma searchMatches_eq_any (q : String) (f : Feature) :
    searchMatches q f = (specSearchFields f).any (fun v => truthyCheck v (strToLower q)) := by
  simp [searchMatches, specSearchFields, List.any_cons, List.any_nil, Bool.or_assoc]

/-- C2 counterexample: the claim says one predicate (including the
`type` field) is used by both `suggest` and `findFirst`; on a feature
whose only searched field is `type`, the keyup predicate matches but the
`performSearch` predicate does not. -/
theorem suggest_search_predicates_differ_cex :
    suggestMatches "cable" [("type", "cable")] = true
    ∧ searchMatches "cable" [("type", "cable")] = false := by
  exact ⟨by decide, by decide⟩

/-- C2 amended: for every non-empty query, the keyup (suggest) predicate
matches iff one of {name-or-nombre, type, location-or-ubicación,
address-or-Dirección, comuna, Empresa, operator-or-operador} resolves
(first truthy alias) to a value containing the query case-insensitively;
the `performSearch` (findFirst) predicate is the same with `type`
removed. -/
theorem match_predicate_characterization (f : Feature) (q : String) (hq : q ≠ "") :
    (suggestMatches q f = true ↔ SpecFieldMatch (specSuggestFields f) q)
    ∧ (searchMatches q f = true ↔ SpecFieldMatch (specSearchFields f) q) := by
  constructor
  · rw [suggestMatches_eq_any]
    exact any_truthy_iff q hq _
  · rw [searchMatches_eq_any]
    exact any_truthy_iff q hq _

/-- Witness for C2's amended claim at a concrete feature and query. -/
theorem match_predicate_characterization_witness :
    SpecFieldMatch (specSearchFields [("comuna", "Valparaíso")]) "VALPA"
    ∧ SpecFieldMatch (specSuggestFields [("comuna", "Valparaíso")]) "VALPA" :=
  ⟨(match_predicate_characterization [("comuna", "Valparaíso")] "VALPA" (by decide)).2.mp
      (by decide),
   (match_predicate_characterization [("comuna", "Valparaíso")] "VALPA" (by decide)).1.mp
      (by decide)⟩

/-! ### C3 / C6: selection and highlight invariants -/

/-- Every style override belongs to the currently selected feature. -/
def Inv (s : SelState) : Prop := ∀ p ∈ s.overrides, s.selected = some p.1

lemma inv_init : Inv initSel := by
  intro p hp
  simp [initSel] at hp

/-- Under the invariant, `resetFeatureStyle` leaves no override at all. -/
lemma reset_overrides_nil {s : SelState} (h : Inv s) :
    (resetFeatureStyle s).overrides = [] := by
  cases hs : s.selected with
  | none =>
    simp only [resetFeatureStyle, hs]
    rcases ho : s.overrides with _ | ⟨p, t⟩
    · rfl
    · have := h p (by rw [ho]; exact List.mem_cons_self p t)
      rw [hs] at this
      exact absurd this (by simp)
  | some f =>
    simp only [resetFeatureStyle, hs]
    apply List.filter_eq_nil_iff.mpr
    intro p hp
    have hsel := h p hp
    rw [hs] at hsel
    have hpf : p.1 = f := by
      injection hsel with hx
      exact hx.symm
    simp [hpf]

lemma foldl_id {α β : Type} (init : α) (l : List β) :
    l.foldl (fun a _ => a) init = init := by
  induction l generalizing init with
  | nil => rfl
  | cons b t ih => exact ih init

lemma fold_setOverride_fst (f : Nat) (l : List StyleRes) :
    ∀ ov : List (Nat × List SV), (∀ p ∈ ov, p.1 = f) →
      ∀ p ∈ l.foldl (fun ov orig => setOverride f (SV.glow :: wrapStyle orig) ov) ov,
        p.1 = f := by
  induction l with
  | nil => intro ov hov p hp; exact hov p hp
  | cons o t ih =>
    intro ov hov p hp
    refine ih (setOverride f (SV.glow :: wrapStyle o) ov) ?_ p hp
    intro q hq
    rcases List.mem_cons.mp hq with hq | hq
    · rw [hq]
    · exact hov q (List.mem_of_mem_filter hq)

lemma inv_step {s : SelState} (h : Inv s) (e : Ev) : Inv (step s e) := by
  cases e with
  | select f geom =>
    intro p hp
    have hnil := reset_overrides_nil h
    simp [step, selectFeature, hnil] at hp
  | deselect =>
    intro p hp
    have hnil := reset_overrides_nil h
    simp [step, hnil] at hp
  | settle =>
    intro p hp
    simp only [step, fireContinuations] at hp ⊢
    cases hs : s.selected with
    | none =>
      rw [hs] at hp
      simp only at hp
      rw [foldl_id] at hp
      exact hs ▸ h p hp
    | some f =>
      rw [hs] at hp
      simp only at hp
      have hbase : ∀ q ∈ s.overrides, q.1 = f := by
        intro q hq
        have hsel := h q hq
        rw [hs] at hsel
        injection hsel with hx
        exact hx.symm
      have hpf := fold_setOverride_fst f s.pending s.overrides hbase p hp
      rw [hpf]

lemma inv_run (evs : List Ev) : Inv (run evs) := by
  have key : ∀ (l : List Ev) (s : SelState), Inv s → Inv (l.foldl step s) := by
    intro l
    induction l with
    | nil => intro s hs; exact hs
    | cons e t ih => intro s hs; exact ih _ (inv_step hs e)
  exact key evs initSel inv_init

/-- C3: after any sequence of selections, deselections and animation
settles, at most one feature carries a style override, and it is the
currently selected one — selecting B after A clears A before B can be
highlighted, so two features are never highlighted at once. -/
theorem highlight_exclusive (evs : List Ev) (a b : Nat)
    (ha : a ∈ (run evs).overrides.map Prod.fst)
    (hb : b ∈ (run evs).overrides.map Prod.fst) :
    a = b ∧ (run evs).selected = some b := by
  obtain ⟨pa, hpa, rfl⟩ := List.mem_map.mp ha
  obtain ⟨pb, hpb, rfl⟩ := List.mem_map.mp hb
  have h1 := inv_run evs pa hpa
  have h2 := inv_run evs pb hpb
  refine ⟨?_, h2⟩
  rw [h1] at h2
  exact Option.some_inj.mp h2

/-- Witness for C3: select 1, settle, select 2, settle leaves exactly
feature 2 highlighted and selected. -/
theorem highlight_exclusive_witness :
    2 = 2 ∧ (run [Ev.select 1 (some (StyleRes.single 5)), Ev.settle,
                  Ev.select 2 (some (StyleRes.arr [7, 8])), Ev.settle]).selected = some 2 :=
  highlight_exclusive
    [Ev.select 1 (some (StyleRes.single 5)), Ev.settle,
     Ev.select 2 (some (StyleRes.arr [7, 8])), Ev.settle]
    2 2 (by decide) (by decide)

/-- C6: the highlight style is only applied by the deferred `moveend`
continuation — the feature just selected never carries an override
immediately after selection — and the continuation is gated solely on
*some* selection being present: whenever a continuation is pending and any
feature is selected at settle time, that current selection receives the
glow-prepended style, even if the continuation was scheduled by an
earlier, different selection. -/
theorem highlight_deferred_and_gate (evs : List Ev) (f g : Nat) (geom : Option StyleRes) :
    (∀ v, (g, v) ∉ (step (run evs) (Ev.select g geom)).overrides)
    ∧ ((run evs).pending ≠ [] → (run evs).selected = some f →
        ∃ orig ∈ (run evs).pending,
          ((step (run evs) Ev.settle).overrides.lookup f)
            = some (SV.glow :: wrapStyle orig)) := by
  constructor
  · intro v hv
    have hnil := reset_overrides_nil (inv_run evs)
    simp [step, selectFeature, hnil] at hv
  · intro hp hsel
    rcases List.eq_nil_or_concat (run evs).pending with hnil | ⟨L, orig, hcat⟩
    · exact absurd hnil hp
    · rw [List.concat_eq_append] at hcat
      refine ⟨orig, by rw [hcat]; exact List.mem_append_right _ (List.mem_singleton_self orig), ?_⟩
      simp only [step, fireContinuations, hcat, hsel, List.foldl_append, List.foldl_cons,
        List.foldl_nil]
      simp [setOverride, List.lookup]

/-- Witness for C6: after selecting 1 then 2 while the first camera fit
is still in flight, settling highlights the current selection 2, and a
fresh selection (3) carries no override before its own settle. -/
theorem highlight_deferred_and_gate_witness :
    ((3, [SV.glow]) ∉
      (step (run [Ev.select 1 (some (StyleRes.single 5)),
                  Ev.select 2 (some (StyleRes.arr [7, 8]))])
        (Ev.select 3 none)).overrides)
    ∧ ∃ orig ∈ (run [Ev.select 1 (some (StyleRes.single 5)),
                     Ev.select 2 (some (StyleRes.arr [7, 8]))]).pending,
        ((step (run [Ev.select 1 (some (StyleRes.single 5)),
                     Ev.select 2 (some (StyleRes.arr [7, 8]))])
          Ev.settle).overrides.lookup 2) = some (SV.glow :: wrapStyle orig) :=
  ⟨(highlight_deferred_and_gate
      [Ev.select 1 (some (StyleRes.single 5)), Ev.select 2 (some (StyleRes.arr [7, 8]))]
      2 3 none).1 [SV.glow],
   (highlight_deferred_and_gate
      [Ev.select 1 (some (StyleRes.single 5)), Ev.select 2 (some (StyleRes.arr [7, 8]))]
      2 3 none).2 (by decide) (by decide)⟩

/-! ### C4: formatter exclusion list -/

/-- C4 (code bug): `excludedKeys` holds the literal `'lineDash'`, but it
is matched against *lower-cased* property keys, so the entry can never
fire: a feature carrying a `lineDash` property — a styling property the
data really uses (`script.js:733,900`) — gets a visible
"LineDash: …" line in the info panel, contrary to the documented
exclusion set. -/
theorem formatter_emits_lineDash_line :
    formatItems [("lineDash", "5,5")]
      = ["<h2>Información del Elemento</h2>",
         "<h4 class=\"subtitle\">Elemento</h4>",
         "<div class=\"info-item\"><strong>LineDash:</strong> 5,5</div>"] := by
  decide

/-! ### C5: suggestion deduplication -/

/-- The dedup key as the claim words it: the `name` property, falling
back to `id` only when `name` is *absent*. -/
def claimedDedupKey (f : Feature) : Option String :=
  match getProp f "name" with
  | some n => some n
  | none => getProp f "id"

/-- Two features with present-but-empty `name` and distinct `id`s. -/
def dupA : Feature := [("name", ""), ("id", "A"), ("comuna", "x")]

def dupB : Feature := [("name", ""), ("id", "B"), ("comuna", "x")]

/-- C5 counterexample: the code keys the dedup set on
`feature.get('name') || feature.get('id')`, so a present-but-*empty*
`name` falls through to `id`; two matching features with empty names and
distinct ids both survive, yet they share the claim's key (their `name`
property), so the claimed "never two entries with the same name-or-id
key" fails. -/
theorem suggest_dedup_key_cex :
    (keyupSuggest [dupA, dupB] "x").items = [dupA, dupB]
    ∧ claimedDedupKey dupA = claimedDedupKey dupB := by
  exact ⟨by decide, by decide⟩

lemma dedupFilter_sublist :
    ∀ (l : List Feature) (seen : List (Option String)), (dedupFilter l seen).Sublist l
  | [], _ => List.nil_sublist []
  | f :: rest, seen => by
    rw [dedupFilter]
    by_cases h : seen.contains (dedupKeyF f) = true
    · rw [if_pos h]
      exact (dedupFilter_sublist rest seen).cons f
    · rw [if_neg h]
      exact (dedupFilter_sublist rest _).cons₂ f

lemma dedupFilter_key_not_seen :
    ∀ (l : List Feature) (seen : List (Option String)) (g : Feature),
      g ∈ dedupFilter l seen → seen.contains (dedupKeyF g) = false
  | [], _, g => by simp [dedupFilter]
  | f :: rest, seen, g => by
    rw [dedupFilter]
    by_cases h : seen.contains (dedupKeyF f) = true
    · rw [if_pos h]
      exact dedupFilter_key_not_seen rest seen g
    · rw [if_neg h]
      intro hg
      rcases List.mem_cons.mp hg with rfl | hg
      · exact Bool.not_eq_true _ ▸ (Bool.eq_false_iff.mpr h)
      · have := dedupFilter_key_not_seen rest (dedupKeyF f :: seen) g hg
        rw [List.contains_cons] at this
        exact (Bool.or_eq_false_iff.mp this).2

lemma beq_false_symm {a b : Option String} (h : (a == b) = false) : (b == a) = false := by
  apply beq_eq_false_iff_ne.mpr
  intro hEq
  exact (beq_eq_false_iff_ne.mp h) hEq.symm

lemma dedupFilter_find :
    ∀ (l : List Feature) (seen : List (Option String)) (g : Feature),
      g ∈ dedupFilter l seen →
      l.find? (fun x => dedupKeyF x == dedupKeyF g) = some g
  | [], _, g => by simp [dedupFilter]
  | f :: rest, seen, g => by
    rw [dedupFilter]
    by_cases h : seen.contains (dedupKeyF f) = true
    · rw [if_pos h]
      intro hg
      have hns := dedupFilter_key_not_seen rest seen g hg
      have hne : (dedupKeyF f == dedupKeyF g) = false := by
        apply beq_eq_false_iff_ne.mpr
        intro hEq
        rw [← hEq] at hns
        rw [h] at hns
        exact Bool.true_eq_false.mp hns
      rw [List.find?_cons, hne]
      exact dedupFilter_find rest seen g hg
    · rw [if_neg h]
      intro hg
      rcases List.mem_cons.mp hg with rfl | hg
      · rw [List.find?_cons, beq_self_eq_true]
      · have hns := dedupFilter_key_not_seen rest (dedupKeyF f :: seen) g hg
        rw [List.contains_cons] at hns
        have hne : (dedupKeyF f == dedupKeyF g) = false :=
          beq_false_symm (Bool.or_eq_false_iff.mp hns).1
        rw [List.find?_cons, hne]
        exact dedupFilter_find rest _ g hg

lemma dedupFilter_pairwise :
    ∀ (l : List Feature) (seen : List (Option String)),
      (dedupFilter l seen).Pairwise (fun a b => dedupKeyF a ≠ dedupKeyF b)
  | [], _ => by simp [dedupFilter]
  | f :: rest, seen => by
    rw [dedupFilter]
    by_cases h : seen.contains (dedupKeyF f) = true
    · rw [if_pos h]
      exact dedupFilter_pairwise rest seen
    · rw [if_neg h]
      refine List.Pairwise.cons ?_ (dedupFilter_pairwise rest _)
      intro b hb hEq
      have hns := dedupFilter_key_not_seen rest (dedupKeyF f :: seen) b hb
      rw [List.contains_cons, hEq] at hns
      simp at hns

lemma dedupFilter_complete :
    ∀ (l : List Feature) (seen : List (Option String)) (f : Feature),
      f ∈ l → seen.contains (dedupKeyF f) = false →
      ∃ g ∈ dedupFilter l seen, dedupKeyF g = dedupKeyF f
  | [], _, f => by simp
  | x :: rest, seen, f => by
    intro hf hseenf
    rw [dedupFilter]
    by_cases h : seen.contains (dedupKeyF x) = true
    · rw [if_pos h]
      rcases List.mem_cons.mp hf with rfl | hf
      · rw [h] at hseenf
        exact absurd hseenf (by simp)
      · exact dedupFilter_complete rest seen f hf hseenf
    · rw [if_neg h]
      rcases List.mem_cons.mp hf with hfx | hf
      · exact ⟨x, List.mem_cons_self _ _, by rw [hfx]⟩
      · by_cases hk : (dedupKeyF x == dedupKeyF f) = true
        · exact ⟨x, List.mem_cons_self _ _, eq_of_beq hk⟩
        · have hseenf2 : (dedupKeyF x :: seen).contains (dedupKeyF f) = false := by
            rw [List.contains_cons, beq_false_symm (Bool.eq_false_iff.mpr hk), hseenf]
            rfl
          obtain ⟨g, hg, hgk⟩ := dedupFilter_complete rest _ f hf hseenf2
          exact ⟨g, List.mem_cons_of_mem x hg, hgk⟩

/-- C5 amended: for a non-empty (trimmed, lower-cased) query, the
suggestion list holds the matching features of the full store
deduplicated by the key `name-if-truthy else id` (a falsy — absent *or
empty* — name falls back to the id property): entry keys are pairwise
distinct, store order is preserved, every matching feature's key is
represented, and each entry is the FIRST matching feature bearing its
key. -/
theorem suggest_dedup_characterization (allFeatures : List Feature) (raw : String)
    (h : strToLower (jsTrim raw) ≠ "") :
    ((keyupSuggest allFeatures raw).items).Pairwise (fun a b => dedupKeyF a ≠ dedupKeyF b)
    ∧ ((keyupSuggest allFeatures raw).items).Sublist
        (allFeatures.filter (fun f => suggestMatches (strToLower (jsTrim raw)) f))
    ∧ (∀ f ∈ allFeatures.filter (fun f => suggestMatches (strToLower (jsTrim raw)) f),
        ∃ g ∈ (keyupSuggest allFeatures raw).items, dedupKeyF g = dedupKeyF f)
    ∧ (∀ g ∈ (keyupSuggest allFeatures raw).items,
        (allFeatures.filter (fun f => suggestMatches (strToLower (jsTrim raw)) f)).find?
          (fun x => dedupKeyF x == dedupKeyF g) = some g) := by
  have hlen : (strToLower (jsTrim raw)).length > 0 := by
    rcases hq : strToLower (jsTrim raw) with ⟨d⟩
    cases d with
    | nil => exact absurd hq h
    | cons c t => simp [String.length]
  unfold keyupSuggest
  rw [if_pos hlen]
  by_cases hm :
      (allFeatures.filter (fun f => suggestMatches (strToLower (jsTrim raw)) f)).length > 0
  · rw [if_pos hm]
    refine ⟨dedupFilter_pairwise _ [], dedupFilter_sublist _ [], ?_, ?_⟩
    · intro f hf
      exact dedupFilter_complete _ [] f hf rfl
    · intro g hg
      exact dedupFilter_find _ [] g hg
  · rw [if_neg hm]
    have hnil : allFeatures.filter (fun f => suggestMatches (strToLower (jsTrim raw)) f) = [] := by
      rcases hq : allFeatures.filter (fun f => suggestMatches (strToLower (jsTrim raw)) f) with
        _ | ⟨x, t⟩
      · rfl
      · rw [hq] at hm
        exact absurd (by simp) hm
    refine ⟨by simp, by rw [hnil], ?_, ?_⟩
    · intro f hf
      rw [hnil] at hf
      exact absurd hf (List.not_mem_nil f)
    · intro g hg
      exact absurd hg (List.not_mem_nil g)

/-- Witness for C5's amended claim: the empty-name features survive as
two entries (distinct actual keys), in store order, each the first of its
key. -/
theorem suggest_dedup_characterization_witness :
    ((keyupSuggest [dupA, dupB] "x").items).Sublist
      ([dupA, dupB].filter (fun f => suggestMatches (strToLower (jsTrim "x")) f))
    ∧ ∃ g ∈ (keyupSuggest [dupA, dupB] "x").items, dedupKeyF g = dedupKeyF dupA :=
  ⟨(suggest_dedup_characterization [dupA, dupB] "x" (by decide)).2.1,
   (suggest_dedup_characterization [dupA, dupB] "x" (by decide)).2.2.1 dupA (by decide)⟩

/-! ### C7: empty or whitespace-only queries -/

/-- C7: on an empty or whitespace-only raw query, `performSearch` (called
on the trimmed input) alerts and aborts with no state change, and the
keyup handler clears the suggestion list and hides it. -/
theorem empty_query_rejected (layers : List (List Feature)) (idOf : Feature → Nat)
    (geomOf : Feature → Option StyleRes) (allFeatures : List Feature)
    (raw : String) (s : SelState) (h : jsTrim raw = "") :
    performSearch layers idOf geomOf (jsTrim raw) s
      = (s, ⟨none, some "Por favor, ingresa un término de búsqueda.", none⟩)
    ∧ keyupSuggest allFeatures raw = ⟨[], none, false⟩ := by
  constructor
  · rw [h]
    rfl
  · unfold keyupSuggest
    rw [h]
    rfl

/-- Witness for C7 on a whitespace-only input. -/
theorem empty_query_rejected_witness :
    performSearch [] (fun _ => 0) (fun _ => none) (jsTrim "  \t ") initSel
      = (initSel, ⟨none, some "Por favor, ingresa un término de búsqueda.", none⟩)
    ∧ keyupSuggest [dupA] "  \t " = ⟨[], none, false⟩ :=
  empty_query_rejected [] (fun _ => 0) (fun _ => none) [dupA] "  \t " initSel (by decide)

/-! ### C8: camera-fit max zoom policy -/

/-- C8: the camera-fit max zoom depends case-insensitively on the
feature's type — "data center" gives 15 for both click and search,
"punto de aterrizaje" gives 13 for both, anything else (or no type)
gives 16 on a direct map click and 14 on a search-driven selection. -/
theorem maxZoom_policy (ty : String) :
    (strToLower ty = "data center" →
      clickMaxZoom (some ty) = 15 ∧ searchMaxZoom (some ty) = 15)
    ∧ (strToLower ty = "punto de aterrizaje" →
      clickMaxZoom (some ty) = 13 ∧ searchMaxZoom (some ty) = 13)
    ∧ (strToLower ty ≠ "data center" → strToLower ty ≠ "punto de aterrizaje" →
      clickMaxZoom (some ty) = 16 ∧ searchMaxZoom (some ty) = 14)
    ∧ clickMaxZoom none = 16 ∧ searchMaxZoom none = 14 := by
  refine ⟨?_, ?_, ?_, rfl, rfl⟩
  · intro h
    have hty : ty ≠ "" := by
      intro h0
      rw [h0] at h
      exact absurd h (by decide)
    simp [clickMaxZoom, searchMaxZoom, h, hty]
  · intro h
    have hty : ty ≠ "" := by
      intro h0
      rw [h0] at h
      exact absurd h (by decide)
    simp [clickMaxZoom, searchMaxZoom, h, hty]
  · intro h1 h2
    simp [clickMaxZoom, searchMaxZoom, h1, h2]

/-- Witness for C8 at a mixed-case landing-point type. -/
theorem maxZoom_policy_witness :
    clickMaxZoom (some "Punto de Aterrizaje") = 13
    ∧ searchMaxZoom (some "Punto de Aterrizaje") = 13 :=
  (maxZoom_policy "Punto de Aterrizaje").2.1 (by decide)

/-! ### C9: the Feature Store only appends -/

/-- C9: `allFeatures` mutates only by append — each source `change`
signal in the `'ready'` state appends exactly that source's current
feature set, once per firing; no event removes features, so the store's
length never decreases. -/
theorem store_append_only (evs : List StoreEv) (e : StoreEv) :
    runStore (evs ++ [e]) = runStore evs ++ readyAppend e
    ∧ (runStore evs).length ≤ (runStore (evs ++ [e])).length := by
  have hstep : ∀ (st : List Feature) (ev : StoreEv), storeStep st ev = st ++ readyAppend ev := by
    intro st ev
    cases ev with
    | srcChange ready fs => cases ready <;> simp [storeStep, readyAppend]
    | uiEvent => simp [storeStep, readyAppend]
  have h1 : runStore (evs ++ [e]) = runStore evs ++ readyAppend e := by
    rw [runStore, runStore, List.foldl_append, List.foldl_cons, List.foldl_nil, hstep]
  exact ⟨h1, by rw [h1]; simp⟩

/-! ### C10: clicking the search box clears it -/

/-- C10: clicking the search input clears any non-empty text and leaves
an empty box unchanged, so a previous query never persists into a new
interaction started by clicking the box. -/
theorem searchBox_click_clears (v : String) :
    searchBoxClickValue v = "" ∧ (v = "" → searchBoxClickValue v = v) := by
  constructor
  · unfold searchBoxClickValue
    by_cases h : v.length > 0
    · rw [if_pos h]
    · rw [if_neg h]
      have hz : v.length = 0 := Nat.eq_zero_of_not_pos h
      rcases v with ⟨d⟩
      cases d with
      | nil => rfl
      | cons c t => simp [String.length] at hz
  · intro h
    rw [h]
    rfl

/-- Witness for C10 on a non-empty and an empty box. -/
theorem searchBox_click_clears_witness :
    searchBoxClickValue "abc" = "" ∧ searchBoxClickValue "" = "" :=
  ⟨(searchBox_click_clears "abc").1, (searchBox_click_clears "").2 rfl⟩

end ArchivoNubes
